import Mathlib

set_option maxRecDepth 100000
set_option maxHeartbeats 2000000

/-! Shallow embedding of `src/playground/interpreter.js`: a line-oriented
scripting-language interpreter with trimmed-line statement dispatch,
4-space-prefix block extraction, a chained Environment scope model, a
regex-substitution expression evaluator, and a function table.  Execution is
modelled with an explicit fuel parameter (the source's `while` form and the
call protocol are not structurally recursive); `none` means the fuel ran out.
All machine strings are Lean `String`s manipulated through their character
lists so that concrete runs reduce inside the kernel. -/

/-- The whitespace class of the source's regexes (`\s`) and of
`String.prototype.trim`, restricted to the whitespace characters that occur
in the programs considered here (space and tab). -/
def isWsC (c : Char) : Bool := c = ' ' || c = '\t'

/-- JS `\w`: ASCII letters, decimal digits and underscore. -/
def isWordC (c : Char) : Bool := c.isAlpha || c.isDigit || c = '_'

/-- The first character of an identifier token in the substitution regex
`[a-zA-Z_]\w*` of `evalExpression` (line 120). -/
def isWordStart (c : Char) : Bool := c.isAlpha || c = '_'

/-- `String.prototype.trim` on a character list. -/
def trimL (cs : List Char) : List Char :=
  ((cs.dropWhile isWsC).reverse.dropWhile isWsC).reverse

/-- `line.trim()` (interpreter.js line 182). -/
def jsTrim (s : String) : String := (trimL s.data).asString

/-- `line.startsWith('    ')` — the fixed four-space block-indentation test
used by every block-extraction scan (lines 249, 263, 276, 291, 308). -/
def startsWith4 (s : String) : Bool :=
  match s.data with
  | ' ' :: ' ' :: ' ' :: ' ' :: _ => true
  | _ => false

/-- Decimal digits of a `\d+` capture to a number (`parseInt(_, 10)`). -/
def digitsToNat (cs : List Char) : Nat :=
  cs.foldl (fun a c => a * 10 + (c.toNat - '0'.toNat)) 0

/-- Decimal numeral printing for nonnegative numbers, with fuel (the fuel
`n + 1` always suffices). -/
def natReprAux : Nat → Nat → List Char
  | 0, _ => []
  | fu + 1, n =>
    if n < 10 then [Char.ofNat (n + '0'.toNat)]
    else natReprAux fu (n / 10) ++ [Char.ofNat (n % 10 + '0'.toNat)]

def natRepr (n : Nat) : String := (natReprAux (n + 1) n).asString

/-- JS `String(n)` for the integer numbers these programs produce. -/
def intRepr (n : Int) : String :=
  if n < 0 then "-" ++ natRepr n.natAbs else natRepr n.natAbs

/-- Runtime values, tagged as `typeof` tags them: number, string, boolean,
undefined.  The only value producers reachable from `interpret` are the
expression evaluator and parameter binding, and neither can build a JS
array/object value, so list/map values are not represented. -/
inductive JsValue where
  | num (n : Int)
  | str (s : String)
  | bool (b : Bool)
  | undef
deriving DecidableEq

/-- JS `String(v)` / template-literal coercion. -/
def jsString : JsValue → String
  | .num n => intRepr n
  | .str s => s
  | .bool b => if b then "true" else "false"
  | .undef => "undefined"

/-- JS truthiness, as consumed by `if (condResult)` and `while (...)`. -/
def jsTruthy : JsValue → Bool
  | .num n => n ≠ 0
  | .str s => s ≠ ""
  | .bool b => b
  | .undef => false

/-- Association-list lookup for a JS object's properties. -/
def alookup : List (String × JsValue) → String → Option JsValue
  | [], _ => none
  | (k, v) :: rest, n => if k = n then some v else alookup rest n

def hasKey (l : List (String × JsValue)) (n : String) : Bool :=
  (alookup l n).isSome

/-- JS object property write: overwrite the existing key in place, else
append (objects keep insertion order and unique keys). -/
def upsert : List (String × JsValue) → String → JsValue → List (String × JsValue)
  | [], n, v => [(n, v)]
  | (k, w) :: rest, n, v =>
    if k = n then (n, v) :: rest else (k, w) :: upsert rest n v

/-- One `Environment` node's own bindings: the `vars` and `consts` objects
(interpreter.js lines 10-15). -/
structure Frame where
  vars : List (String × JsValue)
  consts : List (String × JsValue)
deriving DecidableEq

def emptyFrame : Frame := ⟨[], []⟩

/-- A registered function: parameter names and the captured body lines
(`lines.slice(blockStart, blockEnd)`, line 313).  The stored `bodyStart` /
`bodyEnd` indices of the source are never read by the call protocol and are
omitted. -/
structure FuncDef where
  params : List String
  bodyLines : List String
deriving DecidableEq

/-- The `Runtime` session state: the root (global) `Environment` and the
function table.  The class table is a dead placeholder in the source and is
omitted. -/
structure St where
  global : Frame
  funcs : List (String × FuncDef)
deriving DecidableEq

/-- The chain of child `Environment`s from innermost outward.  The global
`Environment` (held in `St`) is the final parent of every chain; this
list-of-frames presentation captures exactly the aliasing the source
creates: a block scope shares its entire parent chain, and a function-call
scope shares only the global node (line 336). -/
abbrev Scopes := List Frame

/-- `Environment.get` (lines 17-22): `vars` then `consts` at each node, then
the parent, then the global node; a miss everywhere is the NameError
`Variable "name" not found`. -/
def envGet (st : St) (sc : Scopes) (n : String) : Except String JsValue :=
  match sc with
  | [] =>
    match alookup st.global.vars n with
    | some v => .ok v
    | none =>
      match alookup st.global.consts n with
      | some v => .ok v
      | none => .error ("Variable \"" ++ n ++ "\" not found")
  | fr :: rest =>
    match alookup fr.vars n with
    | some v => .ok v
    | none =>
      match alookup fr.consts n with
      | some v => .ok v
      | none => envGet st rest n

/-- One step of `Environment.set`: update this node's `vars` if it holds the
name (`consts` is never consulted, line 25). -/
def setVars (fr : Frame) (n : String) (v : JsValue) : Option Frame :=
  if hasKey fr.vars n then some { fr with vars := upsert fr.vars n v } else none

/-- `Environment.set` along the child chain. -/
def scopesSet : Scopes → String → JsValue → Option Scopes
  | [], _, _ => none
  | fr :: rest, n, v =>
    match setVars fr n v with
    | some fr' => some (fr' :: rest)
    | none => (scopesSet rest n v).map (fr :: ·)

/-- `Environment.set` (lines 24-32): walk the `vars` mappings up the chain
ending at the global node; reaching the root without a hit is the NameError
`Variable "name" not declared`. -/
def envSet (st : St) (sc : Scopes) (n : String) (v : JsValue) :
    Except String (St × Scopes) :=
  match scopesSet sc n v with
  | some sc' => .ok (st, sc')
  | none =>
    match setVars st.global n v with
    | some g => .ok ({ st with global := g }, sc)
    | none => .error ("Variable \"" ++ n ++ "\" not declared")

/-- `Environment.isDeclared` (lines 42-44): both mappings of one node only,
never the parents. -/
def isDeclared (fr : Frame) (n : String) : Bool :=
  hasKey fr.vars n || hasKey fr.consts n

/-- The `Environment` object `interpretBlock` currently runs in. -/
def curFrame (st : St) (sc : Scopes) : Frame :=
  match sc with
  | [] => st.global
  | fr :: _ => fr

/-- `env.isDeclared(name)` for the current scope. -/
def isDeclaredCur (st : St) (sc : Scopes) (n : String) : Bool :=
  isDeclared (curFrame st sc) n

/-- `env.declareVar(name, value)` (lines 34-36) on the current scope. -/
def envDeclareVar (st : St) (sc : Scopes) (n : String) (v : JsValue) :
    St × Scopes :=
  match sc with
  | [] => ({ st with global := { st.global with vars := upsert st.global.vars n v } }, [])
  | fr :: rest => (st, { fr with vars := upsert fr.vars n v } :: rest)

/-- `env.declareConst(name, value)` (lines 38-40) on the current scope. -/
def envDeclareConst (st : St) (sc : Scopes) (n : String) (v : JsValue) :
    St × Scopes :=
  match sc with
  | [] => ({ st with global := { st.global with consts := upsert st.global.consts n v } }, [])
  | fr :: rest => (st, { fr with consts := upsert fr.consts n v } :: rest)

/-- Strip an exact keyword prefix from a character list. -/
def dropPrefixL : List Char → List Char → Option (List Char)
  | [], rest => some rest
  | _, [] => none
  | k :: ks, c :: cs => if c = k then dropPrefixL ks cs else none

/-- `^KW\s+`: the keyword followed by at least one whitespace character;
returns the maximal whitespace run and the remainder after it. -/
def kwRest (kw : List Char) (cs : List Char) : Option (List Char × List Char) :=
  match dropPrefixL kw cs with
  | none => none
  | some r =>
    let w := r.takeWhile isWsC
    if w.isEmpty then none else some (w, r.dropWhile isWsC)

/-- `\s*(.+)$`: skip whitespace greedily and capture the nonempty rest; when
everything left is whitespace, greedy backtracking leaves the run's last
character as the capture. -/
def captureRest (cs : List Char) : Option (List Char) :=
  let e := cs.dropWhile isWsC
  if e.isEmpty then
    match cs.getLast? with
    | some c => some [c]
    | none => none
  else some e

/-- `(.+)$` directly after a `\s+` whose maximal run `w` was already taken:
capture the rest `t`; if `t` is empty, `\s+` backtracks and the capture is
the run's last character (needs the run to have length at least two). -/
def plusCapture (w t : List Char) : Option (List Char) :=
  if t.isEmpty then
    if 2 ≤ w.length then some [w.getLastD ' '] else none
  else some t

/-- The head of the list when it is the expected character, with the rest. -/
def eqHead (l : List Char) (ch : Char) : Option (List Char) :=
  match l with
  | c :: rest => if c = ch then some rest else none
  | [] => none

/-- `^let\s+(\w+)\s*=\s*(.+)$` (line 189) and its `set` twin (line 201). -/
def declMatch (kw : List Char) (cs : List Char) : Option (String × String) :=
  match kwRest kw cs with
  | none => none
  | some (_, t) =>
    let nm := t.takeWhile isWordC
    if nm.isEmpty then none
    else
      match eqHead ((t.dropWhile isWordC).dropWhile isWsC) '=' with
      | some r2 => (captureRest r2).map (fun e => (nm.asString, e.asString))
      | none => none

def letMatch (cs : List Char) : Option (String × String) := declMatch "let".data cs

def setMatch (cs : List Char) : Option (String × String) := declMatch "set".data cs

/-- `^(\w+)\s*=\s*(.+)$` (line 213). -/
def assignMatch (cs : List Char) : Option (String × String) :=
  let nm := cs.takeWhile isWordC
  if nm.isEmpty then none
  else
    match eqHead ((cs.dropWhile isWordC).dropWhile isWsC) '=' with
    | some r2 => (captureRest r2).map (fun e => (nm.asString, e.asString))
    | none => none

/-- `^say\s+(.+)$` (line 225). -/
def sayMatch (cs : List Char) : Option String :=
  match kwRest "say".data cs with
  | none => none
  | some (w, t) => (plusCapture w t).map List.asString

/-- `^return\s+(.+)$` (line 320). -/
def returnMatch (cs : List Char) : Option String :=
  match kwRest "return".data cs with
  | none => none
  | some (w, t) => (plusCapture w t).map List.asString

/-- `^KW\s+(.+):$` — the `if` (line 243) and `while` (line 286) headers. -/
def condMatch (kw : List Char) (cs : List Char) : Option String :=
  match kwRest kw cs with
  | none => none
  | some (w, t) =>
    match t.getLast? with
    | some ':' =>
      if 2 ≤ t.length then some t.dropLast.asString
      else if 2 ≤ w.length then some ([w.getLastD ' '].asString)
      else none
    | _ => none

def ifMatch (cs : List Char) : Option String := condMatch "if".data cs

def whileMatch (cs : List Char) : Option String := condMatch "while".data cs

/-- `^repeat\s+(\d+):$` (line 271). -/
def repeatMatch (cs : List Char) : Option Nat :=
  match kwRest "repeat".data cs with
  | none => none
  | some (_, t) =>
    let ds := t.takeWhile Char.isDigit
    if ds.isEmpty then none
    else
      match t.dropWhile Char.isDigit with
      | [':'] => some (digitsToNat ds)
      | _ => none

/-- `paramsStr.trim() ? paramsStr.split(',').map(s => s.trim()) : []`
(line 304). -/
def splitComma : List Char → List (List Char)
  | [] => [[]]
  | c :: rest =>
    if c = ',' then [] :: splitComma rest
    else
      match splitComma rest with
      | g :: gs => (c :: g) :: gs
      | [] => [[c]]

def parseParams (ps : List Char) : List String :=
  if (trimL ps).isEmpty then [] else (splitComma ps).map (fun p => (trimL p).asString)

/-- `^function\s+(\w+)\s*\(([^)]*)\):$` (line 301). -/
def funcMatch (cs : List Char) : Option (String × List Char) :=
  match kwRest "function".data cs with
  | none => none
  | some (_, t) =>
    let nm := t.takeWhile isWordC
    if nm.isEmpty then none
    else
      match (t.dropWhile isWordC).dropWhile isWsC with
      | '(' :: r3 =>
        match r3.dropWhile (fun c => c ≠ ')') with
        | [')', ':'] => some (nm.asString, r3.takeWhile (fun c => c ≠ ')'))
        | _ => none
      | _ => none

/-- `^(\w+)\((.*)\)$` (line 327): a word, an opening parenthesis right after
it, and a closing parenthesis as the line's last character (greedy `.*`). -/
def callMatch (cs : List Char) : Option (String × String) :=
  let nm := cs.takeWhile isWordC
  if nm.isEmpty then none
  else
    match cs.dropWhile isWordC with
    | '(' :: r2 =>
      match r2.getLast? with
      | some ')' => some (nm.asString, r2.dropLast.asString)
      | _ => none
    | _ => none

/-- The statement forms of the dispatcher, in its fixed priority order. -/
inductive Stmt where
  | blank
  | letS (name expr : String)
  | setS (name expr : String)
  | assign (name expr : String)
  | sayS (arg : String)
  | ifS (cond : String)
  | elseS
  | repeatS (count : Nat)
  | whileS (cond : String)
  | funcDef (name : String) (params : List String)
  | retS (expr : String)
  | callS (name argsStr : String)
  | unknown
deriving DecidableEq

/-- The first-match-wins cascade of `interpretBlock` (lines 183-351) applied
to an already-trimmed line: blank/comment skip, then the statement regexes
in source order, then the unknown-statement fallthrough. -/
def classify (line : String) : Stmt :=
  let cs := line.data
  if cs.isEmpty || cs.headD ' ' = '#' then .blank
  else
    match letMatch cs with
    | some (n, e) => .letS n e
    | none =>
      match setMatch cs with
      | some (n, e) => .setS n e
      | none =>
        match assignMatch cs with
        | some (n, e) => .assign n e
        | none =>
          match sayMatch cs with
          | some a => .sayS a
          | none =>
            match ifMatch cs with
            | some c => .ifS c
            | none =>
              if cs = "else:".data then .elseS
              else
                match repeatMatch cs with
                | some k => .repeatS k
                | none =>
                  match whileMatch cs with
                  | some c => .whileS c
                  | none =>
                    match funcMatch cs with
                    | some (n, ps) => .funcDef n (parseParams ps)
                    | none =>
                      match returnMatch cs with
                      | some e => .retS e
                      | none =>
                        match callMatch cs with
                        | some (n, a) => .callS n a
                        | none => .unknown

/-- One bracketed index application (lines 127-145): a string yields the
single character at the index with a range check; numbers and booleans are
not indexable; `typeof` names the offending type in the message. -/
def applyIndex (v : JsValue) (idx : Nat) : Except String JsValue :=
  match v with
  | .undef => .error "Cannot index into null or undefined"
  | .str s =>
    match s.data.get? idx with
    | some c => .ok (.str [c].asString)
    | none => .error ("Index " ++ natRepr idx ++ " out of range for string")
  | .num _ => .error "Cannot index into type number"
  | .bool _ => .error "Cannot index into type boolean"

def applyIndices : JsValue → List Nat → Except String JsValue
  | v, [] => .ok v
  | v, i :: is =>
    match applyIndex v i with
    | .error m => .error m
    | .ok v' => applyIndices v' is

/-- How one character of a string value appears after `JSON.stringify` puts
the value back into the expression text: quote and backslash get a
backslash prefix, newline and tab their short escapes, everything else
stands for itself. -/
def escSeq (c : Char) : List Char :=
  if c = '"' || c = '\\' then ['\\', c]
  else if c = '\n' then ['\\', 'n']
  else if c = '\t' then ['\\', 't']
  else [c]

/-- `JSON.stringify` on a string value (line 147), so the substituted text
stays syntactically valid. -/
def jsonQuote (s : String) : String :=
  "\"" ++ (s.data.foldr (fun c acc => escSeq c ++ acc) []).asString ++ "\""

/-- The `(?:\[\d+\])*` suffix of the substitution regex: zero or more
bracketed digit groups; returns the indices, the exact matched text and the
remainder.  The fuel `length + 1` always suffices. -/
def parseIdxGroups : Nat → List Char → List Nat × List Char × List Char
  | 0, cs => ([], [], cs)
  | fu + 1, cs =>
    match cs with
    | '[' :: r =>
      let ds := r.takeWhile Char.isDigit
      if ds.isEmpty then ([], [], cs)
      else
        match r.dropWhile Char.isDigit with
        | ']' :: r2 =>
          let (is, txt, rest) := parseIdxGroups fu r2
          (digitsToNat ds :: is, ('[' :: ds) ++ (']' :: txt), rest)
        | _ => ([], [], cs)
    | _ => ([], [], cs)

/-- Resolve one matched token (lines 122-152): look up the base name, apply
the indices in order, and print the value back into the expression text,
re-quoting string values. -/
def resolveToken (st : St) (sc : Scopes) (base : String) (idxs : List Nat) :
    Except String String :=
  match envGet st sc base with
  | .error m => .error m
  | .ok v0 =>
    match applyIndices v0 idxs with
    | .error m => .error m
    | .ok v => .ok (match v with | .str s => jsonQuote s | other => jsString other)

/-- The token-substitution pass of `evalExpression` (lines 120-152): scan
for `[a-zA-Z_]\w*(?:\[\d+\])*` matches left to right (replacements are not
rescanned), splice each resolved value back, and propagate any resolution
failure as the `Variable or index error`.  The fuel `length + 1` always
suffices (each step consumes at least one character). -/
def substAux (st : St) (sc : Scopes) : Nat → List Char → Except String (List Char)
  | 0, cs => .ok cs
  | _ + 1, [] => .ok []
  | fu + 1, c :: rest =>
    if isWordStart c then
      let tok := (c :: rest).takeWhile isWordC
      let afterTok := (c :: rest).dropWhile isWordC
      let (idxs, idxTxt, rest') := parseIdxGroups (afterTok.length + 1) afterTok
      match resolveToken st sc tok.asString idxs with
      | .error m =>
        .error ("Variable or index error: " ++ (tok ++ idxTxt).asString ++ " - " ++ m)
      | .ok repl =>
        match substAux st sc fu rest' with
        | .error m => .error m
        | .ok tail => .ok (repl.data ++ tail)
    else
      match substAux st sc fu rest with
      | .error m => .error m
      | .ok tail => .ok (c :: tail)

def substTokens (st : St) (sc : Scopes) (cs : List Char) : Except String (List Char) :=
  substAux st sc (cs.length + 1) cs

/-- Tokens of the host expression grammar fragment that substituted
expressions in these programs can contain. -/
inductive Tok where
  | lit (v : JsValue)
  | lparen
  | rparen
  | bang
  | plus
  | minus
  | star
  | ltT
  | gtT
  | leT
  | geT
  | eqT
  | neT
  | andT
  | orT
deriving DecidableEq

/-- A quoted JS string literal after its opening quote `q`: content up to
the matching quote, decoding the escapes `jsonQuote` can emit. -/
def readStr : Nat → Char → List Char → Except Unit (List Char × List Char)
  | 0, _, _ => .error ()
  | _ + 1, _, [] => .error ()
  | fu + 1, q, '\\' :: e :: rest =>
    let dec := if e = 'n' then '\n' else if e = 't' then '\t' else e
    match readStr fu q rest with
    | .error u => .error u
    | .ok (ct, rm) => .ok (dec :: ct, rm)
  | fu + 1, q, c :: rest =>
    if c = q then .ok ([], rest)
    else
      match readStr fu q rest with
      | .error u => .error u
      | .ok (ct, rm) => .ok (c :: ct, rm)

/-- Tokenizer for the host evaluation step (line 157): integer numerals,
quoted strings, `true`/`false`, parentheses and the operators
`+ - * < > <= >= == != === !== && || !`.  Any other text makes the host
evaluation throw (strict-mode ReferenceError for a leftover identifier,
SyntaxError otherwise), which the enclosing try/catch turns into the
`Expression evaluation failed` error; the `.error` result models every such
case.  The fuel `length + 1` always suffices. -/
def tokenizeAux : Nat → List Char → Except Unit (List Tok)
  | 0, _ => .error ()
  | _ + 1, [] => .ok []
  | fu + 1, cs =>
    match cs with
    | '=' :: '=' :: '=' :: r => (tokenizeAux fu r).map (Tok.eqT :: ·)
    | '=' :: '=' :: r => (tokenizeAux fu r).map (Tok.eqT :: ·)
    | '!' :: '=' :: '=' :: r => (tokenizeAux fu r).map (Tok.neT :: ·)
    | '!' :: '=' :: r => (tokenizeAux fu r).map (Tok.neT :: ·)
    | '<' :: '=' :: r => (tokenizeAux fu r).map (Tok.leT :: ·)
    | '>' :: '=' :: r => (tokenizeAux fu r).map (Tok.geT :: ·)
    | '&' :: '&' :: r => (tokenizeAux fu r).map (Tok.andT :: ·)
    | '|' :: '|' :: r => (tokenizeAux fu r).map (Tok.orT :: ·)
    | '(' :: r => (tokenizeAux fu r).map (Tok.lparen :: ·)
    | ')' :: r => (tokenizeAux fu r).map (Tok.rparen :: ·)
    | '!' :: r => (tokenizeAux fu r).map (Tok.bang :: ·)
    | '<' :: r => (tokenizeAux fu r).map (Tok.ltT :: ·)
    | '>' :: r => (tokenizeAux fu r).map (Tok.gtT :: ·)
    | '+' :: r => (tokenizeAux fu r).map (Tok.plus :: ·)
    | '-' :: r => (tokenizeAux fu r).map (Tok.minus :: ·)
    | '*' :: r => (tokenizeAux fu r).map (Tok.star :: ·)
    | c :: rest =>
      if isWsC c then tokenizeAux fu rest
      else if c.isDigit then
        let ds := (c :: rest).takeWhile Char.isDigit
        (tokenizeAux fu ((c :: rest).dropWhile Char.isDigit)).map
          (Tok.lit (.num (digitsToNat ds)) :: ·)
      else if isWordStart c then
        let w := (c :: rest).takeWhile isWordC
        let r := (c :: rest).dropWhile isWordC
        if w = "true".data then (tokenizeAux fu r).map (Tok.lit (.bool true) :: ·)
        else if w = "false".data then (tokenizeAux fu r).map (Tok.lit (.bool false) :: ·)
        else .error ()
      else if c = '"' || c = '\'' then
        match readStr (rest.length + 1) c rest with
        | .error u => .error u
        | .ok (ct, rm) => (tokenizeAux fu rm).map (Tok.lit (.str ct.asString) :: ·)
      else .error ()
    | [] => .ok []

/-- JS numeric coercion of an operand in arithmetic/relational position for
the value shapes these programs produce (booleans coerce to 0/1); shapes
whose coercion is not modelled make the evaluation fail. -/
def toNum : JsValue → Except Unit Int
  | .num n => .ok n
  | .bool b => .ok (if b then 1 else 0)
  | _ => .error ()

def isStr : JsValue → Bool
  | .str _ => true
  | _ => false

/-- A relational operator: string-to-string comparisons are lexicographic,
everything else numeric. -/
def relJs (l r : JsValue) (fi : Int → Int → Bool) (fs : String → String → Bool) :
    Except Unit JsValue :=
  match l, r with
  | .str a, .str b => .ok (.bool (fs a b))
  | _, _ =>
    match toNum l, toNum r with
    | .ok a, .ok b => .ok (.bool (fi a b))
    | _, _ => .error ()

/-- Loose equality on the shapes that can meet here: same-type comparisons
by value, number/boolean via numeric coercion, undefined equal only to
itself; string/number coercion is not modelled. -/
def eqJs (l r : JsValue) : Except Unit Bool :=
  match l, r with
  | .str a, .str b => .ok (a == b)
  | .undef, .undef => .ok true
  | .undef, _ => .ok false
  | _, .undef => .ok false
  | .str _, _ => .error ()
  | _, .str _ => .error ()
  | a, b =>
    match toNum a, toNum b with
    | .ok x, .ok y => .ok (x == y)
    | _, _ => .error ()

def applyBin (op : Tok) (l r : JsValue) : Except Unit JsValue :=
  match op with
  | .plus =>
    if isStr l || isStr r then .ok (.str (jsString l ++ jsString r))
    else
      match toNum l, toNum r with
      | .ok a, .ok b => .ok (.num (a + b))
      | _, _ => .error ()
  | .minus =>
    match toNum l, toNum r with
    | .ok a, .ok b => .ok (.num (a - b))
    | _, _ => .error ()
  | .star =>
    match toNum l, toNum r with
    | .ok a, .ok b => .ok (.num (a * b))
    | _, _ => .error ()
  | .ltT => relJs l r (fun a b => decide (a < b)) (fun a b => decide (a < b))
  | .gtT => relJs l r (fun a b => decide (b < a)) (fun a b => decide (b < a))
  | .leT => relJs l r (fun a b => decide (a ≤ b)) (fun a b => decide (a ≤ b))
  | .geT => relJs l r (fun a b => decide (b ≤ a)) (fun a b => decide (b ≤ a))
  | .eqT => (eqJs l r).map JsValue.bool
  | .neT => (eqJs l r).map (fun b => JsValue.bool (!b))
  | .andT => .ok (if jsTruthy l then r else l)
  | .orT => .ok (if jsTruthy l then l else r)
  | _ => .error ()

def prec : Tok → Option Nat
  | .orT => some 0
  | .andT => some 1
  | .eqT => some 2
  | .neT => some 2
  | .ltT => some 3
  | .gtT => some 3
  | .leT => some 3
  | .geT => some 3
  | .plus => some 4
  | .minus => some 4
  | .star => some 5
  | _ => none

/-- Precedence-climbing evaluator for the tokenized expression with the
documented JS precedence: level 0 is or-expressions, 1 and-expressions,
2 equality, 3 relational, 4 additive, 5 multiplicative, 6 unary and
7 primary.  `acc = some l` continues the binary-operator loop of the level
with left operand `l`.  A generous fuel is supplied by `jsEval`. -/
def parseL : Nat → Nat → Option JsValue → List Tok → Except Unit (JsValue × List Tok)
  | 0, _, _, _ => .error ()
  | fu + 1, lvl, some l, toks =>
    match toks with
    | t :: rest =>
      if prec t = some lvl then
        match parseL fu (lvl + 1) none rest with
        | .error u => .error u
        | .ok (rv, rest') =>
          match applyBin t l rv with
          | .error u => .error u
          | .ok v => parseL fu lvl (some v) rest'
      else .ok (l, toks)
    | [] => .ok (l, toks)
  | fu + 1, lvl, none, toks =>
    if lvl = 6 then
      match toks with
      | .bang :: r =>
        match parseL fu 6 none r with
        | .error u => .error u
        | .ok (v, r') => .ok (.bool (!jsTruthy v), r')
      | .minus :: r =>
        match parseL fu 6 none r with
        | .error u => .error u
        | .ok (v, r') =>
          match toNum v with
          | .ok n => .ok (.num (-n), r')
          | .error u => .error u
      | _ => parseL fu 7 none toks
    else if lvl = 7 then
      match toks with
      | .lit v :: r => .ok (v, r)
      | .lparen :: r =>
        match parseL fu 0 none r with
        | .ok (v, .rparen :: r') => .ok (v, r')
        | _ => .error ()
      | _ => .error ()
    else
      match parseL fu (lvl + 1) none toks with
      | .error u => .error u
      | .ok (l, r) => parseL fu lvl (some l) r

/-- The host evaluation `Function('"use strict";return (' + safeExpr + ')')()`
(line 157) on the modelled grammar fragment: tokenize, evaluate with
standard precedence, and require the whole token list to be consumed. -/
def jsEval (cs : List Char) : Except Unit JsValue :=
  match tokenizeAux (cs.length + 1) cs with
  | .error u => .error u
  | .ok toks =>
    match parseL ((toks.length + 1) * 16) 0 none toks with
    | .ok (v, []) => .ok v
    | _ => .error ()

/-- `evalExpression` (lines 113-161): trim, substitute identifier/index
tokens with looked-up values (failures thrown from the replace callback
propagate as the `Variable or index error`, uncaught), then evaluate the
substituted text; a host evaluation failure is reported as
`Expression evaluation failed:` with the trimmed expression.  The sanitize
replace of line 117 maps every match to itself and is the identity. -/
def evalExpression (expr : String) (st : St) (sc : Scopes) : Except String JsValue :=
  let e := trimL expr.data
  match substTokens st sc e with
  | .error m => .error m
  | .ok cs =>
    match jsEval cs with
    | .ok v => .ok v
    | .error _ => .error ("Expression evaluation failed: " ++ e.asString)

/-- The integer fragment of JS `Number(valStr)` behind `parseValue`'s
`!isNaN(Number(valStr))` test (line 89): an optional sign followed by
decimal digits; the empty string converts to 0.  Fractional, exponent and
hexadecimal forms do not occur in the inputs considered here and are left
to the `none` (NaN) side only when no such form appears. -/
def jsNumber (cs : List Char) : Option Int :=
  if cs.isEmpty then some 0
  else if cs.headD ' ' = '-' then
    if !(cs.drop 1).isEmpty && (cs.drop 1).all Char.isDigit then
      some (-(digitsToNat (cs.drop 1) : Int))
    else none
  else if cs.headD ' ' = '+' then
    if !(cs.drop 1).isEmpty && (cs.drop 1).all Char.isDigit then
      some (digitsToNat (cs.drop 1))
    else none
  else if cs.all Char.isDigit then some (digitsToNat cs)
  else none

/-- `parseValue` (lines 84-110).  This helper is defined in the source but
never called by the interpreter.  Quoted text must begin and end with the
same quote character and is sliced verbatim; the numeric test precedes the
boolean keywords; the `[...]`/`{...}` JSON branches are represented by
their failure messages only (no input considered here reaches them); the
fallthrough resolves the text as a variable through the current chain. -/
def parseValue (valStr : String) (st : St) (sc : Scopes) : Except String JsValue :=
  let v := trimL valStr.data
  if 2 ≤ v.length && v.headD ' ' = '"' && v.getLastD ' ' = '"' then
    .ok (.str (v.dropLast.drop 1).asString)
  else if 2 ≤ v.length && v.headD ' ' = '\'' && v.getLastD ' ' = '\'' then
    .ok (.str (v.dropLast.drop 1).asString)
  else
    match jsNumber v with
    | some n => .ok (.num n)
    | none =>
      if v = "true".data then .ok (.bool true)
      else if v = "false".data then .ok (.bool false)
      else if v.headD ' ' = '[' && v.getLastD ' ' = ']' then .error "Invalid list syntax"
      else if v.headD ' ' = '{' && v.getLastD ' ' = '}' then .error "Invalid map syntax"
      else envGet st sc v.asString

/-- The exception channel: genuine `Error` objects (their message) and the
`{ type: 'return', value }` control object thrown by the return statement
(line 323). -/
inductive Thrown where
  | err (msg : String)
  | ret (v : JsValue)
deriving DecidableEq

/-- What one `interpretBlock` invocation returns: normally the accumulated
output array; `val` is the early return a call statement performs with a
non-array value (lines 341 and 343). -/
inductive BRes where
  | out (l : List String)
  | val (v : JsValue)
deriving DecidableEq

abbrev RunRes := Option (Except Thrown (BRes × St × Scopes))

/-- The block-extraction scan
`while (blockEnd < lines.length && lines[blockEnd].startsWith('    '))`
(line 249 and its twins at 263, 276, 291, 308): the bound is the full
array's length and the test is the absolute four-space prefix of the raw,
untrimmed line.  Fuel `lines.length` always suffices. -/
def scanAux (lines : List String) : Nat → Nat → Nat
  | 0, k => k
  | n + 1, k =>
    if k < lines.length && startsWith4 (lines.getD k "") then scanAux lines n (k + 1)
    else k

def scanBlockEnd (lines : List String) (k : Nat) : Nat :=
  scanAux lines lines.length k

/-- Prepend one pushed output line to the rest of the block's result; an
early return from a later call statement abandons the local output array
(lines 341/343 return without it). -/
def consOut (s : String) : RunRes → RunRes
  | none => none
  | some (.error e) => some (.error e)
  | some (.ok (.out os, st, sc)) => some (.ok (.out (s :: os), st, sc))
  | some (.ok (.val v, st, sc)) => some (.ok (.val v, st, sc))

/-- `output.push(...blockOutput)` followed by the rest of the block. -/
def appendOut (os : List String) : RunRes → RunRes
  | none => none
  | some (.error e) => some (.error e)
  | some (.ok (.out os2, st, sc)) => some (.ok (.out (os ++ os2), st, sc))
  | some (.ok (.val v, st, sc)) => some (.ok (.val v, st, sc))

/-- `output.push(...blockOutput)` when the inner block performed a call
statement's early return with a non-array value: the host throws a spread
TypeError.  No program considered here reaches this. -/
def spreadErr : Thrown := .err "TypeError: blockOutput is not iterable"

/-- Parameter binding of the call protocol (lines 336-339): a fresh
Environment holding each argument under its parameter name, in order. -/
def bindParams (ps : List String) (vs : List JsValue) : Frame :=
  ⟨(ps.zip vs).foldl (fun m pv => upsert m pv.1 pv.2) [], []⟩

def lookupFunc : List (String × FuncDef) → String → Option FuncDef
  | [], _ => none
  | (k, f) :: rest, n => if k = n then some f else lookupFunc rest n

/-- Function registration `runtime.functions[funcName] = ...` (line 309):
redefinition silently overwrites. -/
def upsertFunc : List (String × FuncDef) → String → FuncDef → List (String × FuncDef)
  | [], n, f => [(n, f)]
  | (k, g) :: rest, n, f =>
    if k = n then (n, f) :: rest else (k, g) :: upsertFunc rest n f

/-- Argument evaluation (line 332): split the raw argument text on commas
and evaluate each piece left to right in the caller's scope (an empty
trimmed text is the empty argument list). -/
def evalArgsL (st : St) (sc : Scopes) : List (List Char) → Except String (List JsValue)
  | [] => .ok []
  | a :: rest =>
    match evalExpression a.asString st sc with
    | .error m => .error m
    | .ok v => (evalArgsL st sc rest).map (v :: ·)

def evalArgs (argsStr : String) (st : St) (sc : Scopes) : Except String (List JsValue) :=
  if (trimL argsStr.data).isEmpty then .ok []
  else evalArgsL st sc (splitComma argsStr.data)

/-- The call statement's handling of the body's outcome (lines 340-345):
the enclosing `interpretBlock` returns immediately.  A thrown return
signal's value is returned as-is; a normally completed body returns
`interpretBlock(...).output`, and the `.output` property of an array — or
of any non-null value — is `undefined`, while reading it from `undefined`
itself throws a TypeError.  Genuine errors rethrow.  The state paired with
a `ret`-carried value is the caller's (the source's ambient state at that
point is never observable: the value either reaches the top, where `run`
discards state, or an enclosing block spread-TypeErrors on it). -/
def callResult (r : RunRes) (st : St) (sc : Scopes) : RunRes :=
  match r with
  | none => none
  | some (.error (.ret v)) => some (.ok (.val v, st, sc))
  | some (.error (.err m)) => some (.error (.err m))
  | some (.ok (.out _, st', _)) => some (.ok (.val .undef, st', sc))
  | some (.ok (.val .undef, _, _)) =>
    some (.error (.err "TypeError: Cannot read properties of undefined"))
  | some (.ok (.val _, st', _)) => some (.ok (.val .undef, st', sc))

/-- The call-statement protocol (lines 327-346) parameterised by the block
interpreter `go`: look up the function, evaluate the arguments in the
caller's scope, check arity after evaluation, bind parameters in a fresh
Environment whose parent chain is the global node only — never the
caller's chain — and run the captured body lines as a fresh array. -/
def execCall (go : List String → Nat → Nat → St → Scopes → RunRes)
    (nm argsStr : String) (st : St) (sc : Scopes) : RunRes :=
  match lookupFunc st.funcs nm with
  | none => some (.error (.err ("Function \"" ++ nm ++ "\" not found")))
  | some fd =>
    match evalArgs argsStr st sc with
    | .error m => some (.error (.err m))
    | .ok args =>
      if args.length = fd.params.length then
        callResult (go fd.bodyLines 0 fd.bodyLines.length st [bindParams fd.params args]) st sc
      else
        some (.error (.err ("Function \"" ++ nm ++ "\" expects " ++
          natRepr fd.params.length ++ " arguments")))

/-- The repeat loop (lines 277-280): `count` iterations of the captured
block, each in a fresh child Environment, outputs concatenated in order. -/
def runCount (go : St → Scopes → RunRes) :
    Nat → St → Scopes → Option (Except Thrown (List String × St × Scopes))
  | 0, st, sc => some (.ok ([], st, sc))
  | c + 1, st, sc =>
    match go st (emptyFrame :: sc) with
    | none => none
    | some (.error e) => some (.error e)
    | some (.ok (.val _, _, _)) => some (.error spreadErr)
    | some (.ok (.out os, st', sc')) =>
      match runCount go c st' sc'.tail with
      | none => none
      | some (.error e) => some (.error e)
      | some (.ok (os2, st2, sc2)) => some (.ok (os ++ os2, st2, sc2))

/-- The while loop (lines 292-295): re-evaluate the condition before each
iteration, each iteration in a fresh child Environment; the iteration
count is bounded by the interpreter fuel. -/
def runWhile (cond : St → Scopes → Except String JsValue) (go : St → Scopes → RunRes) :
    Nat → St → Scopes → Option (Except Thrown (List String × St × Scopes))
  | 0, _, _ => none
  | n + 1, st, sc =>
    match cond st sc with
    | .error m => some (.error (.err m))
    | .ok v =>
      if jsTruthy v then
        match go st (emptyFrame :: sc) with
        | none => none
        | some (.error e) => some (.error e)
        | some (.ok (.val _, _, _)) => some (.error spreadErr)
        | some (.ok (.out os, st', sc')) =>
          match runWhile cond go n st' sc'.tail with
          | none => none
          | some (.error e) => some (.error e)
          | some (.ok (os2, st2, sc2)) => some (.ok (os ++ os2, st2, sc2))
      else some (.ok ([], st, sc))

/-- The quoted-argument fast path test of say (line 228):
`/^["'].*["']$/` — any quote character at each end, mismatched pairs
allowed. -/
def isQuotedArg (arg : String) : Bool :=
  match arg.data with
  | c :: rest =>
    (c = '"' || c = '\'') &&
      (match rest.getLast? with
       | some d => d = '"' || d = '\''
       | none => false)
  | [] => false

/-- `arg.slice(1, -1)` (line 229). -/
def sliceQuotes (arg : String) : String :=
  (arg.data.dropLast.drop 1).asString

/-- `interpretBlock(lines, start, end, env)` (lines 176-355) with fuel:
scan the lines of `[i, endI)` in order, classify each trimmed line by the
dispatcher cascade and execute it.  `none` means the fuel ran out (the
source can diverge through `while` and through recursive calls); any
`some` result is the source's outcome. -/
def interpretBlock : Nat → List String → Nat → Nat → St → Scopes → RunRes
  | 0, _, _, _, _, _ => none
  | f + 1, lines, i, endI, st, sc =>
    if i < endI then
      let line := jsTrim (lines.getD i "")
      match classify line with
      | .blank => interpretBlock f lines (i + 1) endI st sc
      | .letS nm ex =>
        match evalExpression ex st sc with
        | .error m => some (.error (.err m))
        | .ok v =>
          if isDeclaredCur st sc nm then
            some (.error (.err ("Variable \"" ++ nm ++ "\" already declared")))
          else
            let p := envDeclareVar st sc nm v
            interpretBlock f lines (i + 1) endI p.1 p.2
      | .setS nm ex =>
        match evalExpression ex st sc with
        | .error m => some (.error (.err m))
        | .ok v =>
          if isDeclaredCur st sc nm then
            some (.error (.err ("Variable \"" ++ nm ++ "\" already declared")))
          else
            let p := envDeclareConst st sc nm v
            interpretBlock f lines (i + 1) endI p.1 p.2
      | .assign nm ex =>
        if isDeclaredCur st sc nm then
          match evalExpression ex st sc with
          | .error m => some (.error (.err m))
          | .ok v =>
            match envSet st sc nm v with
            | .error m => some (.error (.err m))
            | .ok p => interpretBlock f lines (i + 1) endI p.1 p.2
        else some (.error (.err ("Variable \"" ++ nm ++ "\" not declared")))
      | .sayS arg =>
        if isQuotedArg arg then
          consOut (sliceQuotes arg) (interpretBlock f lines (i + 1) endI st sc)
        else
          match evalExpression arg st sc with
          | .ok v => consOut (jsString v) (interpretBlock f lines (i + 1) endI st sc)
          | .error m =>
            consOut ("Error in say: " ++ m) (interpretBlock f lines (i + 1) endI st sc)
      | .ifS cond =>
        match evalExpression cond st sc with
        | .error m => some (.error (.err m))
        | .ok cv =>
          let be := scanBlockEnd lines (i + 1)
          if jsTruthy cv then
            match interpretBlock f lines (i + 1) be st (emptyFrame :: sc) with
            | none => none
            | some (.error e) => some (.error e)
            | some (.ok (.val _, _, _)) => some (.error spreadErr)
            | some (.ok (.out os, st', sc')) =>
              appendOut os (interpretBlock f lines be endI st' sc'.tail)
          else interpretBlock f lines be endI st sc
      | .elseS =>
        let be := scanBlockEnd lines (i + 1)
        match interpretBlock f lines (i + 1) be st (emptyFrame :: sc) with
        | none => none
        | some (.error e) => some (.error e)
        | some (.ok (.val _, _, _)) => some (.error spreadErr)
        | some (.ok (.out os, st', sc')) =>
          appendOut os (interpretBlock f lines be endI st' sc'.tail)
      | .repeatS count =>
        let be := scanBlockEnd lines (i + 1)
        match runCount (fun st1 sc1 => interpretBlock f lines (i + 1) be st1 sc1)
            count st sc with
        | none => none
        | some (.error e) => some (.error e)
        | some (.ok (os, st', sc')) => appendOut os (interpretBlock f lines be endI st' sc')
      | .whileS cond =>
        let be := scanBlockEnd lines (i + 1)
        match runWhile (fun st1 sc1 => evalExpression cond st1 sc1)
            (fun st1 sc1 => interpretBlock f lines (i + 1) be st1 sc1) f st sc with
        | none => none
        | some (.error e) => some (.error e)
        | some (.ok (os, st', sc')) => appendOut os (interpretBlock f lines be endI st' sc')
      | .funcDef nm ps =>
        let be := scanBlockEnd lines (i + 1)
        let body := (lines.drop (i + 1)).take (be - (i + 1))
        interpretBlock f lines be endI { st with funcs := upsertFunc st.funcs nm ⟨ps, body⟩ } sc
      | .retS ex =>
        match evalExpression ex st sc with
        | .error m => some (.error (.err m))
        | .ok v => some (.error (.ret v))
      | .callS nm argsStr =>
        execCall (fun l a b s c => interpretBlock f l a b s c) nm argsStr st sc
      | .unknown => some (.error (.err ("Unknown or unsupported statement: " ++ line)))
    else some (.ok (.out [], st, sc))

/-- `interpret(lines)` (lines 165-174): reset the runtime and interpret the
whole program in the fresh global Environment. -/
def interpret (fuel : Nat) (lines : List String) : RunRes :=
  interpretBlock fuel lines 0 lines.length ⟨emptyFrame, []⟩ []

/-- The externally observable outcome: the interpreter's result with the
session state projected away. -/
def run (fuel : Nat) (lines : List String) : Option (Except Thrown BRes) :=
  (interpret fuel lines).map (Except.map (fun t => t.1))

/-! ### General lemmas about the embedding -/

lemma mem_of_headQ {α : Type} {l : List α} {a : α} (h : l.head? = some a) : a ∈ l := by
  cases l with
  | nil => simp at h
  | cons b t =>
    simp [List.head?] at h
    exact h ▸ List.mem_cons_self b t

lemma mem_of_getLastQ {α : Type} {l : List α} {a : α} (h : l.getLast? = some a) : a ∈ l := by
  have h2 : l.reverse.head? = some a := by rw [List.head?_reverse]; exact h
  simpa using mem_of_headQ h2

lemma dropWhile_eq_self_of_head {p : Char → Bool} {cs : List Char}
    (h : ∀ c, cs.head? = some c → p c = false) : cs.dropWhile p = cs := by
  cases cs with
  | nil => rfl
  | cons c t =>
    have hc : p c = false := h c rfl
    simp [List.dropWhile_cons, hc]

lemma trimL_eq_self {cs : List Char}
    (h1 : ∀ c, cs.head? = some c → isWsC c = false)
    (h2 : ∀ c, cs.getLast? = some c → isWsC c = false) : trimL cs = cs := by
  unfold trimL
  rw [dropWhile_eq_self_of_head h1]
  rw [dropWhile_eq_self_of_head (fun c hc => h2 c (by rwa [List.head?_reverse] at hc))]
  exact List.reverse_reverse cs

lemma ne_of_pred {f : Char → Bool} {c d : Char} (h1 : f c = true) (h2 : f d = false) :
    c ≠ d := by
  intro he
  subst he
  rw [h1] at h2
  exact Bool.noConfusion h2

lemma not_ws_of_digit {c : Char} (h : c.isDigit = true) : isWsC c = false := by
  by_contra hne
  have h2 : isWsC c = true := by revert hne; cases isWsC c <;> simp
  have h3 : c = ' ' ∨ c = '\t' := by simpa [isWsC] using h2
  rcases h3 with rfl | rfl <;> exact absurd h (by decide)

lemma trimL_digits {cs : List Char} (h : ∀ c ∈ cs, c.isDigit = true) : trimL cs = cs :=
  trimL_eq_self (fun c hc => not_ws_of_digit (h c (mem_of_headQ hc)))
    (fun c hc => not_ws_of_digit (h c (mem_of_getLastQ hc)))

lemma asString_data (s : String) : s.data.asString = s := rfl

lemma scanAux_le (lines : List String) (n : Nat) : ∀ k, k ≤ scanAux lines n k := by
  induction n with
  | zero => intro k; simp [scanAux]
  | succ n ih =>
    intro k
    unfold scanAux
    split
    · exact Nat.le_trans (Nat.le_succ k) (ih (k + 1))
    · exact Nat.le_refl k

lemma scanAux_mem (lines : List String) (n : Nat) :
    ∀ k j, k ≤ j → j < scanAux lines n k → startsWith4 (lines.getD j "") = true := by
  induction n with
  | zero =>
    intro k j h1 h2
    simp [scanAux] at h2
    omega
  | succ n ih =>
    intro k j h1 h2
    unfold scanAux at h2
    by_cases hc : (decide (k < lines.length) && startsWith4 (lines.getD k "")) = true
    · rw [if_pos hc] at h2
      rcases Nat.eq_or_lt_of_le h1 with rfl | hlt
      · exact (Bool.and_eq_true _ _ |>.mp hc).2
      · exact ih (k + 1) j hlt h2
    · rw [if_neg hc] at h2
      omega

lemma scanAux_stop (lines : List String) (n : Nat) :
    ∀ k, lines.length ≤ n + k → scanAux lines n k < lines.length →
      startsWith4 (lines.getD (scanAux lines n k) "") = false := by
  induction n with
  | zero =>
    intro k hf h
    simp [scanAux] at h ⊢
    exact absurd h (by omega)
  | succ n ih =>
    intro k hf h
    unfold scanAux at h ⊢
    by_cases hc : (decide (k < lines.length) && startsWith4 (lines.getD k "")) = true
    · rw [if_pos hc] at h ⊢
      exact ih (k + 1) (by omega) h
    · rw [if_neg hc] at h ⊢
      cases hsw : startsWith4 (lines.getD k "") with
      | false => rfl
      | true =>
        exact absurd ((Bool.and_eq_true _ _).mpr ⟨decide_eq_true h, hsw⟩) hc

lemma scanBlockEnd_mem {lines : List String} {k j : Nat}
    (h1 : k ≤ j) (h2 : j < scanBlockEnd lines k) : startsWith4 (lines.getD j "") = true :=
  scanAux_mem lines lines.length k j h1 h2

lemma scanBlockEnd_stop {lines : List String} {k : Nat}
    (h : scanBlockEnd lines k < lines.length) :
    startsWith4 (lines.getD (scanBlockEnd lines k) "") = false :=
  scanAux_stop lines lines.length k (Nat.le_add_right _ _) h

/-- The lowercase ASCII letters, the name alphabet used to state the
unknown-statement property of the repeat form. -/
def lowerChars : List Char :=
  ['a', 'b', 'c', 'd', 'e', 'f', 'g', 'h', 'i', 'j', 'k', 'l', 'm',
   'n', 'o', 'p', 'q', 'r', 's', 't', 'u', 'v', 'w', 'x', 'y', 'z']

lemma lower_not_ws {c : Char} (h : c ∈ lowerChars) : isWsC c = false := by
  fin_cases h <;> decide

lemma lower_not_digit {c : Char} (h : c ∈ lowerChars) : c.isDigit = false := by
  fin_cases h <;> decide

lemma lower_ne_eq {c : Char} (h : c ∈ lowerChars) : c ≠ '=' := by
  fin_cases h <;> decide

/-- C1: the claim says an `if`/`else` pair executes exactly one branch block
and that the example program outputs exactly `["big"]`.  The code violates
this: the `else:` handler (lines 259-268) runs its block unconditionally,
without consulting the preceding `if`, so with a true condition both blocks
run and the example outputs `["big", "small"]`.  This theorem evaluates the
embedded interpreter at the claim's own example. -/
theorem C1_code_bug_eval :
    run 30 ["let x = 10", "if x > 5:", "    say \"big\"", "else:", "    say \"small\""] =
      some (.ok (.out ["big", "small"])) := by rfl

/-- C4: the claim says a completed call's result is the body's output list
and that execution continues with the next statement.  The code instead
`return`s out of the enclosing `interpretBlock` at the call (line 341),
reading the nonexistent `.output` property of the body's output array
(`undefined`), so the prior output is discarded, the following statement
never runs, and the run's result is `undefined`.  This theorem evaluates
the embedded interpreter at such a program. -/
theorem C4_code_bug_eval :
    run 30 ["function f():", "    say \"x\"", "say \"before\"", "f()", "say \"after\""] =
      some (.ok (.val .undef)) := by rfl

/-- C5: defining `add(a, b)` with body `return a + b` and then executing the
standalone call `add(2, 3)` completes the call through the return-unwind
carrying the value 5 (the run's result is that unwound value), and no
output line is produced during the run: no `say` executes and the result
carries no output list. -/
theorem C5_return_unwind :
    run 30 ["function add(a, b):", "    return a + b", "add(2, 3)"] =
      some (.ok (.val (.num 5))) := by rfl

/-- C8: at the root scope, `set PI = 3` followed by `PI = 4` fails with the
"not declared" NameError of `Environment.set` — the vars-only search finds
no `vars` entry and the root has no parent — and not with any distinct
"cannot assign to constant" error (no such message exists in the code). -/
theorem C8_const_reassign :
    run 10 ["set PI = 3", "PI = 4"] =
      some (.error (.err "Variable \"PI\" not declared")) := by rfl

/-- C2 counterexample: the literal `true` as a declaration right-hand side
does not evaluate to a Boolean with no name lookup; `evalExpression`
resolves it as a variable and the whole run aborts with the lookup
failure. -/
theorem C2_counterexample :
    run 10 ["let b = true"] =
      some (.error (.err "Variable or index error: true - Variable \"true\" not found")) := by rfl

/-- C3 counterexample: `x` is declared in an ancestor (reachable) scope, yet
the assignment inside the `if` block fails with the "not declared"
NameError, because the dispatcher checks `isDeclared` on the current scope
only (line 216). -/
theorem C3_counterexample :
    run 20 ["let x = 1", "if 1:", "    x = 2"] =
      some (.error (.err "Variable \"x\" not declared")) := by rfl

/-- C6 counterexample: in the nested program the line `    say "y"` sits at
the nested `if 0:` header's own 4-space depth, so per the claim it should
run as part of the outer block and output `["y"]`; the code instead
captures it into the nested (skipped) body and outputs nothing. -/
theorem C6_counterexample :
    run 20 ["if 1:", "    if 0:", "        say \"x\"", "    say \"y\""] =
      some (.ok (.out [])) := by rfl

/-- C7 counterexample: `return 1` at the top level does not produce the
fatal error "return used outside a function body"; the run aborts with the
return-unwind control object itself escaping uncaught. -/
theorem C7_counterexample :
    run 10 ["return 1"] = some (.error (.ret (.num 1)))
    ∧ Thrown.ret (.num 1) ≠ Thrown.err "return used outside a function body" := by
  exact ⟨rfl, by simp⟩

-- C2 general development
/-- In `parseValue`, any double-quoted text evaluates to the String exactly
between the quotes, with no name lookup. -/
lemma parseValue_quoted (st : St) (sc : Scopes) (s : String) :
    parseValue ("\"" ++ s ++ "\"") st sc = .ok (.str s) := by
  have hdata : ("\"" ++ s ++ "\"").data = ('"' :: s.data) ++ ['"'] := by
    simp [String.data_append]
  have htrim : trimL ("\"" ++ s ++ "\"").data = ('"' :: s.data) ++ ['"'] := by
    rw [hdata]
    refine trimL_eq_self ?_ ?_
    · intro c hc
      simp [List.cons_append, List.head?] at hc
      subst hc
      decide
    · intro c hc
      rw [List.getLast?_concat] at hc
      cases hc
      decide
  simp only [parseValue, htrim]
  have hlen : 2 ≤ (('"' :: s.data) ++ ['"']).length := by
    simp [List.length_append]
  have hhead : (('"' :: s.data) ++ ['"']).headD ' ' = '"' := by
    simp [List.cons_append, List.headD]
  have hlast : (('"' :: s.data) ++ ['"']).getLastD ' ' = '"' := by
    simp [List.getLastD]
  simp only [hlen, hhead, hlast]
  have hdrop : ('"' :: (s.data ++ ['"'])).dropLast = '"' :: s.data := by
    show (('"' :: s.data) ++ ['"']).dropLast = '"' :: s.data
    exact List.dropLast_concat
  simp [asString_data]
  rw [hdrop]
  simp [asString_data]

/-- In `parseValue`, any nonempty run of decimal digits passes the numeric
test and evaluates to the corresponding Number, with no name lookup. -/
lemma parseValue_digits (st : St) (sc : Scopes) (d : String)
    (hd1 : ∀ c ∈ d.data, c.isDigit = true) (hd2 : d.data ≠ []) :
    parseValue d st sc = .ok (.num (digitsToNat d.data)) := by
  obtain ⟨c, t, hct⟩ := List.exists_cons_of_ne_nil hd2
  have hc : c.isDigit = true := hd1 c (by rw [hct]; exact List.mem_cons_self _ _)
  have htrim : trimL d.data = d.data := trimL_digits hd1
  have hall : d.data.all Char.isDigit = true := List.all_eq_true.mpr hd1
  have h1 : c ≠ '"' := ne_of_pred hc (by decide)
  have h2 : c ≠ '\'' := ne_of_pred hc (by decide)
  have h3 : c ≠ '-' := ne_of_pred hc (by decide)
  have h4 : c ≠ '+' := ne_of_pred hc (by decide)
  simp only [parseValue]
  rw [hct] at htrim hall
  rw [hct, htrim]
  have ht : ∀ x ∈ t, x.isDigit = true :=
    fun x hx => List.all_eq_true.mp hall x (List.mem_cons_of_mem c hx)
  simp [jsNumber, h1, h2, h3, h4, hc]
  rw [if_pos ht]

/-- C2 (amended): the literal fast path exists only in the helper
`parseValue`, which the interpreter never calls: there, quoted text becomes
the String verbatim, digit runs become the Number, and `true`/`false`
become Booleans, with no name lookup.  The evaluator actually used for
declaration right-hand sides (`evalExpression`) has no such fast path: it
substitutes every identifier-like token via the scope chain, so `true` and
quoted text whose inside is a word fail with a lookup error in an empty
environment, while a purely numeric literal still evaluates to its
Number. -/
theorem C2_amended (st : St) (sc : Scopes) (s d : String)
    (hd1 : ∀ c ∈ d.data, c.isDigit = true) (hd2 : d.data ≠ []) :
    parseValue ("\"" ++ s ++ "\"") st sc = .ok (.str s)
    ∧ parseValue d st sc = .ok (.num (digitsToNat d.data))
    ∧ parseValue "true" st sc = .ok (.bool true)
    ∧ parseValue "false" st sc = .ok (.bool false)
    ∧ evalExpression "true" ⟨emptyFrame, []⟩ [] =
        .error "Variable or index error: true - Variable \"true\" not found"
    ∧ evalExpression "\"hello\"" ⟨emptyFrame, []⟩ [] =
        .error "Variable or index error: hello - Variable \"hello\" not found"
    ∧ evalExpression "42" ⟨emptyFrame, []⟩ [] = .ok (.num 42) :=
  ⟨parseValue_quoted st sc s, parseValue_digits st sc d hd1 hd2, rfl, rfl, rfl, rfl, rfl⟩

/-- Witness for C2 (amended) at the quoted string "hi" and the numeral
"42". -/
theorem C2_amended_witness :
    parseValue ("\"" ++ "hi" ++ "\"") ⟨emptyFrame, []⟩ [] = .ok (.str "hi")
    ∧ parseValue "42" ⟨emptyFrame, []⟩ [] = .ok (.num (digitsToNat "42".data))
    ∧ parseValue "true" ⟨emptyFrame, []⟩ [] = .ok (.bool true)
    ∧ parseValue "false" ⟨emptyFrame, []⟩ [] = .ok (.bool false)
    ∧ evalExpression "true" ⟨emptyFrame, []⟩ [] =
        .error "Variable or index error: true - Variable \"true\" not found"
    ∧ evalExpression "\"hello\"" ⟨emptyFrame, []⟩ [] =
        .error "Variable or index error: hello - Variable \"hello\" not found"
    ∧ evalExpression "42" ⟨emptyFrame, []⟩ [] = .ok (.num 42) :=
  C2_amended ⟨emptyFrame, []⟩ [] "hi" "42" (by decide) (by decide)

/-- C3 (amended): an assignment statement fails with NameError whenever the
name is not declared in the current scope — even when an ancestor declares
it — because the dispatcher consults `isDeclared` of the current
Environment only; when the name is in the current scope's `vars`,
`Environment.set` mutates that owning binding in place, as the concrete
mutation run shows. -/
theorem C3_amended (f : Nat) (lines : List String) (i endI : Nat) (st : St) (sc : Scopes)
    (nm ex : String)
    (h1 : i < endI)
    (h2 : classify (jsTrim (lines.getD i "")) = .assign nm ex)
    (h3 : isDeclaredCur st sc nm = false) :
    interpretBlock (f + 1) lines i endI st sc =
      some (.error (.err ("Variable \"" ++ nm ++ "\" not declared")))
    ∧ (∀ (st2 : St) (fr : Frame) (rest : Scopes) (v : JsValue), hasKey fr.vars nm = true →
        envSet st2 (fr :: rest) nm v =
          .ok (st2, { fr with vars := upsert fr.vars nm v } :: rest))
    ∧ run 20 ["let x = 1", "if 1:", "    x = 2"] =
        some (.error (.err "Variable \"x\" not declared"))
    ∧ run 20 ["let x = 1", "x = 2", "say x"] = some (.ok (.out ["2"])) := by
  refine ⟨?_, ?_, rfl, rfl⟩
  · simp only [interpretBlock]
    rw [if_pos h1, h2]
    simp [h3]
  · intro st2 fr rest v hk
    simp [envSet, scopesSet, setVars, hk]

/-- Witness for C3 (amended): the assignment step inside the if-block's
child scope of the counterexample program. -/
theorem C3_amended_witness :
    interpretBlock (5 + 1) ["let x = 1", "if 1:", "    x = 2"] 2 3
      ⟨⟨[("x", .num 1)], []⟩, []⟩ [emptyFrame] =
      some (.error (.err ("Variable \"" ++ "x" ++ "\" not declared")))
    ∧ (∀ (st2 : St) (fr : Frame) (rest : Scopes) (v : JsValue), hasKey fr.vars "x" = true →
        envSet st2 (fr :: rest) "x" v =
          .ok (st2, { fr with vars := upsert fr.vars "x" v } :: rest))
    ∧ run 20 ["let x = 1", "if 1:", "    x = 2"] =
        some (.error (.err "Variable \"x\" not declared"))
    ∧ run 20 ["let x = 1", "x = 2", "say x"] = some (.ok (.out ["2"])) :=
  C3_amended 5 ["let x = 1", "if 1:", "    x = 2"] 2 3 ⟨⟨[("x", .num 1)], []⟩, []⟩
    [emptyFrame] "x" "2" (by decide) (by decide) (by decide)

/-- C7 (amended): a `return EXPR` statement always throws the return-unwind
signal carrying the evaluated value; outside any active call nothing
catches it, so the signal itself escapes and aborts the run — no distinct
"return used outside a function body" error exists. -/
theorem C7_amended (f : Nat) (lines : List String) (i endI : Nat) (st : St) (sc : Scopes)
    (ex : String) (v : JsValue)
    (h1 : i < endI)
    (h2 : classify (jsTrim (lines.getD i "")) = .retS ex)
    (h3 : evalExpression ex st sc = .ok v) :
    interpretBlock (f + 1) lines i endI st sc = some (.error (.ret v))
    ∧ run 10 ["return 1"] = some (.error (.ret (.num 1))) := by
  refine ⟨?_, rfl⟩
  simp only [interpretBlock]
  rw [if_pos h1, h2]
  simp [h3]

/-- Witness for C7 (amended) at the one-line program `return 1`. -/
theorem C7_amended_witness :
    interpretBlock (3 + 1) ["return 1"] 0 1 ⟨emptyFrame, []⟩ [] =
      some (.error (.ret (.num 1)))
    ∧ run 10 ["return 1"] = some (.error (.ret (.num 1))) :=
  C7_amended 3 ["return 1"] 0 1 ⟨emptyFrame, []⟩ [] "1" (.num 1)
    (by decide) (by decide) rfl

/-- C6 (amended): block extraction always scans with the absolute fixed
four-space prefix on the raw lines and never re-trims: every line strictly
inside the scanned bounds has the 4-space prefix, the scan is maximal, and
in the concrete nested program the body of the inner construct (header at
index 1, at depth 4) extends through index 3 — the line at the nested
header's own depth — so that line is part of the nested body, not of the
outer block. -/
theorem C6_amended (lines : List String) (k j : Nat)
    (h1 : k ≤ j) (h2 : j < scanBlockEnd lines k) :
    startsWith4 (lines.getD j "") = true
    ∧ (scanBlockEnd lines k < lines.length →
        startsWith4 (lines.getD (scanBlockEnd lines k) "") = false)
    ∧ scanBlockEnd ["if 1:", "    if 0:", "        say \"x\"", "    say \"y\""] 2 = 4
    ∧ run 20 ["if 1:", "    if 0:", "        say \"x\"", "    say \"y\""] =
        some (.ok (.out [])) :=
  ⟨scanBlockEnd_mem h1 h2, fun h => scanBlockEnd_stop h, rfl, rfl⟩

/-- Witness for C6 (amended) at the nested program, bounds 2 and 3. -/
theorem C6_amended_witness :
    startsWith4 ((["if 1:", "    if 0:", "        say \"x\"", "    say \"y\""].getD 3 "")) = true
    ∧ (scanBlockEnd ["if 1:", "    if 0:", "        say \"x\"", "    say \"y\""] 2 <
          ["if 1:", "    if 0:", "        say \"x\"", "    say \"y\""].length →
        startsWith4 ((["if 1:", "    if 0:", "        say \"x\"", "    say \"y\""].getD
          (scanBlockEnd ["if 1:", "    if 0:", "        say \"x\"", "    say \"y\""] 2) "")) = false)
    ∧ scanBlockEnd ["if 1:", "    if 0:", "        say \"x\"", "    say \"y\""] 2 = 4
    ∧ run 20 ["if 1:", "    if 0:", "        say \"x\"", "    say \"y\""] =
        some (.ok (.out [])) :=
  C6_amended ["if 1:", "    if 0:", "        say \"x\"", "    say \"y\""] 2 3
    (by decide) (by decide)

/-- C9: executing a call statement runs the captured body in a fresh scope
chain consisting of the parameter bindings only, on top of the global
Environment held in the session state — the caller's chain `sc` does not
occur in the body's interpretation — so a body reading a name local to its
caller fails with the name-lookup error, as the concrete program shows. -/
theorem C9_call_env (f : Nat) (lines : List String) (i endI : Nat) (st : St) (sc : Scopes)
    (nm argsStr : String) (fd : FuncDef) (args : List JsValue)
    (h1 : i < endI)
    (h2 : classify (jsTrim (lines.getD i "")) = .callS nm argsStr)
    (h3 : lookupFunc st.funcs nm = some fd)
    (h4 : evalArgs argsStr st sc = .ok args)
    (h5 : args.length = fd.params.length) :
    interpretBlock (f + 1) lines i endI st sc =
      callResult (interpretBlock f fd.bodyLines 0 fd.bodyLines.length st
        [bindParams fd.params args]) st sc
    ∧ run 30 ["function f():", "    let y = x", "if 1:", "    let x = 1", "    f()"] =
        some (.error (.err "Variable or index error: x - Variable \"x\" not found")) := by
  refine ⟨?_, rfl⟩
  simp only [interpretBlock]
  rw [if_pos h1, h2]
  simp only [execCall, h3, h4]
  rw [if_pos h5]

/-- Witness for C9 at the call `add(2, 3)` with `add` registered. -/
theorem C9_call_env_witness :
    interpretBlock (10 + 1) ["add(2, 3)"] 0 1
      ⟨emptyFrame, [("add", ⟨["a", "b"], ["    return a + b"]⟩)]⟩ [] =
      callResult (interpretBlock 10 ["    return a + b"] 0 (["    return a + b"] : List String).length
        ⟨emptyFrame, [("add", ⟨["a", "b"], ["    return a + b"]⟩)]⟩
        [bindParams ["a", "b"] [.num 2, .num 3]])
        ⟨emptyFrame, [("add", ⟨["a", "b"], ["    return a + b"]⟩)]⟩ []
    ∧ run 30 ["function f():", "    let y = x", "if 1:", "    let x = 1", "    f()"] =
        some (.error (.err "Variable or index error: x - Variable \"x\" not found")) :=
  C9_call_env 10 ["add(2, 3)"] 0 1 ⟨emptyFrame, [("add", ⟨["a", "b"], ["    return a + b"]⟩)]⟩
    [] "add" "2, 3" ⟨["a", "b"], ["    return a + b"]⟩ [.num 2, .num 3]
    (by decide) (by decide) rfl rfl (by decide)

/-- A line classified as no statement form makes `interpretBlock` fail with
the unknown-statement SyntaxError naming the trimmed line. -/
lemma interpretBlock_unknown (f : Nat) (lines : List String) (i endI : Nat) (st : St)
    (sc : Scopes)
    (h1 : i < endI)
    (h2 : classify (jsTrim (lines.getD i "")) = .unknown) :
    interpretBlock (f + 1) lines i endI st sc =
      some (.error (.err ("Unknown or unsupported statement: " ++ jsTrim (lines.getD i "")))) := by
  simp only [interpretBlock]
  rw [if_pos h1, h2]

/-- C10: a `repeat N:` line whose count is a lowercase variable name matches
no statement form — not the repeat regex (whose count must be a literal
digit run) nor any other — and fails as an unknown statement, while
`repeat 0:` matches and executes its body zero times (and the concrete
`repeat x:` line fails the same way). -/
theorem C10_repeat (s : String) (c : Char) (t : List Char)
    (h1 : s.data = c :: t) (h2 : ∀ d ∈ s.data, d ∈ lowerChars) :
    classify ("repeat " ++ s ++ ":") = .unknown
    ∧ run 10 ["repeat " ++ s ++ ":"] =
        some (.error (.err ("Unknown or unsupported statement: " ++ ("repeat " ++ s ++ ":"))))
    ∧ run 10 ["repeat 0:", "    say \"hi\""] = some (.ok (.out []))
    ∧ run 10 ["repeat x:", "    say \"hi\""] =
        some (.error (.err "Unknown or unsupported statement: repeat x:")) := by
  have hc : c ∈ lowerChars := h2 c (by rw [h1]; exact List.mem_cons_self _ _)
  have hcw : isWsC c = false := lower_not_ws hc
  have hcd : c.isDigit = false := lower_not_digit hc
  have hce : c ≠ '=' := lower_ne_eq hc
  have hdata : ("repeat " ++ s ++ ":").data
      = 'r' :: 'e' :: 'p' :: 'e' :: 'a' :: 't' :: ' ' :: (s.data ++ [':']) := by
    rw [String.data_append, String.data_append]
    rfl
  have hA : (s.data ++ [':']).dropWhile isWsC = c :: (t ++ [':']) := by
    rw [h1, List.cons_append]
    simp [List.dropWhile_cons, hcw]
  have hB : (c :: (t ++ [':'])).takeWhile Char.isDigit = [] := by
    simp [List.takeWhile_cons, hcd]
  have m1 : letMatch ('r' :: 'e' :: 'p' :: 'e' :: 'a' :: 't' :: ' ' :: (s.data ++ [':'])) = none := rfl
  have m2 : setMatch ('r' :: 'e' :: 'p' :: 'e' :: 'a' :: 't' :: ' ' :: (s.data ++ [':'])) = none := rfl
  have m3 : assignMatch ('r' :: 'e' :: 'p' :: 'e' :: 'a' :: 't' :: ' ' :: (s.data ++ [':'])) = none := by
    have e1 : (List.takeWhile isWordC
        ('r' :: 'e' :: 'p' :: 'e' :: 'a' :: 't' :: ' ' :: (s.data ++ [':']))).isEmpty = false := rfl
    have e2 : (('r' :: 'e' :: 'p' :: 'e' :: 'a' :: 't' :: ' ' :: (s.data ++ [':'])).dropWhile
        isWordC).dropWhile isWsC = (s.data ++ [':']).dropWhile isWsC := rfl
    simp only [assignMatch, e1, e2, hA]
    simp [eqHead, hce]
  have m4 : sayMatch ('r' :: 'e' :: 'p' :: 'e' :: 'a' :: 't' :: ' ' :: (s.data ++ [':'])) = none := rfl
  have m5 : ifMatch ('r' :: 'e' :: 'p' :: 'e' :: 'a' :: 't' :: ' ' :: (s.data ++ [':'])) = none := rfl
  have m6 : repeatMatch ('r' :: 'e' :: 'p' :: 'e' :: 'a' :: 't' :: ' ' :: (s.data ++ [':'])) = none := by
    have hkw : kwRest "repeat".data ('r' :: 'e' :: 'p' :: 'e' :: 'a' :: 't' :: ' ' :: (s.data ++ [':']))
        = some (' ' :: (s.data ++ [':']).takeWhile isWsC, (s.data ++ [':']).dropWhile isWsC) := rfl
    simp only [repeatMatch, hkw, hA, hB]
    simp
  have m7 : whileMatch ('r' :: 'e' :: 'p' :: 'e' :: 'a' :: 't' :: ' ' :: (s.data ++ [':'])) = none := rfl
  have m8 : funcMatch ('r' :: 'e' :: 'p' :: 'e' :: 'a' :: 't' :: ' ' :: (s.data ++ [':'])) = none := rfl
  have m9 : returnMatch ('r' :: 'e' :: 'p' :: 'e' :: 'a' :: 't' :: ' ' :: (s.data ++ [':'])) = none := rfl
  have m10 : callMatch ('r' :: 'e' :: 'p' :: 'e' :: 'a' :: 't' :: ' ' :: (s.data ++ [':'])) = none := rfl
  have hblank : (('r' :: 'e' :: 'p' :: 'e' :: 'a' :: 't' :: ' ' :: (s.data ++ [':'])).isEmpty
      || ('r' :: 'e' :: 'p' :: 'e' :: 'a' :: 't' :: ' ' :: (s.data ++ [':'])).headD ' ' = '#') = false := rfl
  have hclass : classify ("repeat " ++ s ++ ":") = .unknown := by
    simp only [classify, hdata, hblank, m1, m2, m3, m4, m5, m6, m7, m8, m9, m10]
    rfl
  have hlastq : ('r' :: 'e' :: 'p' :: 'e' :: 'a' :: 't' :: ' ' :: (s.data ++ [':'])).getLast?
      = some ':' := by
    show (('r' :: 'e' :: 'p' :: 'e' :: 'a' :: 't' :: ' ' :: s.data) ++ [':']).getLast? = some ':'
    exact List.getLast?_concat _
  have htrimline : jsTrim ("repeat " ++ s ++ ":") = "repeat " ++ s ++ ":" := by
    unfold jsTrim
    rw [hdata]
    rw [trimL_eq_self (fun c' hc' => by simp [List.head?] at hc'; subst hc'; decide)
      (fun c' hc' => by rw [hlastq] at hc'; cases hc'; decide)]
    rw [← hdata]
    exact asString_data _
  refine ⟨hclass, ?_, rfl, rfl⟩
  have hg : ((["repeat " ++ s ++ ":"] : List String).getD 0 "") = "repeat " ++ s ++ ":" := rfl
  have hstep := interpretBlock_unknown 9 ["repeat " ++ s ++ ":"] 0 1 ⟨emptyFrame, []⟩ []
    (by decide) (by rw [hg, htrimline]; exact hclass)
  rw [hg, htrimline] at hstep
  show (interpretBlock (9 + 1) ["repeat " ++ s ++ ":"] 0 1 ⟨emptyFrame, []⟩ []).map
      (Except.map (fun t => t.1)) = _
  rw [hstep]
  rfl

/-- Witness for C10 at the name "n". -/
theorem C10_repeat_witness :
    classify ("repeat " ++ "n" ++ ":") = .unknown
    ∧ run 10 ["repeat " ++ "n" ++ ":"] =
        some (.error (.err ("Unknown or unsupported statement: " ++ ("repeat " ++ "n" ++ ":"))))
    ∧ run 10 ["repeat 0:", "    say \"hi\""] = some (.ok (.out []))
    ∧ run 10 ["repeat x:", "    say \"hi\""] =
        some (.error (.err "Unknown or unsupported statement: repeat x:")) :=
  C10_repeat "n" 'n' [] rfl (by decide)
